import Mathlib

/-!
Verification development for the AudioBookzOrganizer repository.

Strings are modelled as `List Char` (Python `str`).  Each definition below is a
shallow embedding of a function of the repository; the source file and symbol
are named in its doc comment.  Filesystem and network effects are made explicit:
a function that mutates the filesystem returns a record of the mutations it
performs, and external responses (HTTP, audio-tag reads) are passed in as data.
-/

namespace AudioBookz

/-- Characters removed by Python `str.strip()` with no argument (ASCII whitespace;
the repository only ever strips ASCII text). -/
def isSpaceChar (c : Char) : Bool :=
  c = ' ' || c = '\t' || c = '\n' || c = '\r' || c = '\x0b' || c = '\x0c'

/-- Python `str.strip()`: remove leading and trailing whitespace. -/
def pyStrip (s : List Char) : List Char :=
  ((s.dropWhile isSpaceChar).reverse.dropWhile isSpaceChar).reverse

/-- Python `str.lower()` restricted to ASCII letters, which is exact for every
string the repository compares case-insensitively. -/
def lowerChar (c : Char) : Char :=
  if 'A' ≤ c ∧ c ≤ 'Z' then Char.ofNat (c.toNat + 32) else c

/-- Python `str.lower()` on a whole string. -/
def pyLower (s : List Char) : List Char := s.map lowerChar

/-- Python `s.startswith(p)` for a single pattern `p`. -/
def pyStartsWith (s p : List Char) : Bool := s.take p.length == p

/-- The literal separator `" - "` appearing in both folder-name regex templates
of `src/audiobookz_organizer/parser.py` and `src/Organize.py`. -/
def sepL : List Char := [' ', '-', ' ']

/-- Reads the separator `" - "` at offset `i` of `s`, returning the remainder of
the string after it.  Used to enumerate the candidate split points of the two
regex templates. -/
def afterSep (s : List Char) (i : Nat) : Option (List Char) :=
  if (s.drop i).take 3 = sepL then some (s.drop (i + 3)) else none

/-- One candidate match of `re.match` for the template
`(?P<title>.+) - (?P<author>[^-]+)` (`_PATTERN_TITLE_AUTHOR`) with the title
group of length `i`: the title group is a nonempty newline-free prefix (`.`
does not match a newline), the literal separator follows, and the author group
is the maximal nonempty run of non-hyphen characters after the separator
(`re.match` anchors only at the start, so the match need not span all of `s`).
Returns the pair (title group, author group). -/
def taAt (s : List Char) (i : Nat) : Option (List Char × List Char) :=
  (afterSep s i).bind fun rest =>
    if s.take i ≠ [] ∧ (s.take i).all (fun c => c ≠ '\n') ∧
        rest.takeWhile (fun c => c ≠ '-') ≠ [] then
      some (s.take i, rest.takeWhile (fun c => c ≠ '-'))
    else none

/-- Full `re.match` semantics for `_PATTERN_TITLE_AUTHOR`: the leading `.+` is
greedy, so among all candidate splits the largest title length wins. -/
def matchTitleAuthor (s : List Char) : Option (List Char × List Char) :=
  ((List.range (s.length + 1)).reverse).findSome? (taAt s)

/-- One candidate match of `re.match` for the template
`(?P<author>[^-]+) - (?P<title>.+)` (`_PATTERN_AUTHOR_TITLE`) with the author
group of length `i`: the author group is a nonempty hyphen-free prefix, the
literal separator follows, and the title group is the maximal nonempty run of
non-newline characters after it.  Returns the pair (author group, title group). -/
def atAt (s : List Char) (i : Nat) : Option (List Char × List Char) :=
  (afterSep s i).bind fun rest =>
    if s.take i ≠ [] ∧ (s.take i).all (fun c => c ≠ '-') ∧
        rest.takeWhile (fun c => c ≠ '\n') ≠ [] then
      some (s.take i, rest.takeWhile (fun c => c ≠ '\n'))
    else none

/-- Full `re.match` semantics for `_PATTERN_AUTHOR_TITLE`: the leading `[^-]+`
is greedy, so the largest author length wins. -/
def matchAuthorTitle (s : List Char) : Option (List Char × List Char) :=
  ((List.range (s.length + 1)).reverse).findSome? (atAt s)

/-- Sentinel default for an unresolved author (`src/audiobookcleanr/models.py`). -/
def unknownAuthor : List Char := "Unknown Author".toList

/-- Sentinel default for an unresolved title. -/
def unknownTitle : List Char := "Unknown Title".toList

/-- Sentinel default for an unresolved genre. -/
def unknownGenre : List Char := "Unknown Genre".toList

/-- Sentinel default for an unresolved year. -/
def yearZero : List Char := "0000".toList

/-- The `Audiobook` dataclass of `src/audiobookcleanr/models.py` (the variant
imported by `src/audiobookz_organizer/core.py`): source path, author, title,
genre, year and a multipart flag, with the unknown sentinels as defaults. -/
structure Audiobook where
  source_path : List Char
  author : List Char := unknownAuthor
  title : List Char := unknownTitle
  genre : List Char := unknownGenre
  year : List Char := yearZero
  is_multipart : Bool := false
  deriving DecidableEq

/-- Embedding of `parser._match_pattern` applied to `_PATTERN_TITLE_AUTHOR`:
on a match, build an `Audiobook` whose author and title are the stripped
capture groups (both groups are always present for this pattern, so the
`data.get` defaults are never used). -/
def matchPatternTA (path : List Char) : Option Audiobook :=
  (matchTitleAuthor path).map fun g =>
    { source_path := path, author := pyStrip g.2, title := pyStrip g.1 }

/-- Embedding of `parser._match_pattern` applied to `_PATTERN_AUTHOR_TITLE`. -/
def matchPatternAT (path : List Char) : Option Audiobook :=
  (matchAuthorTitle path).map fun g =>
    { source_path := path, author := pyStrip g.1, title := pyStrip g.2 }

/-- The tuple test `author.lower().startswith(("the ", "a ", "an "))` of
`parser.parse_folder` (the argument is already lower-cased by the caller). -/
def startsWithArticle (s : List Char) : Bool :=
  pyStartsWith s "the ".toList || pyStartsWith s "a ".toList ||
    pyStartsWith s "an ".toList

/-- Embedding of `parser.parse_folder` (`src/audiobookz_organizer/parser.py`):
prefer the title-first interpretation unless its author field starts with a
leading article, in which case fall back to the author-first interpretation. -/
def parse_folder (path : List Char) : Option Audiobook :=
  match matchPatternTA path with
  | some candidate =>
      if startsWithArticle (pyLower candidate.author) then matchPatternAT path
      else some candidate
  | none => matchPatternAT path

/-- Embedding of `Organize.parse_foldername` (`src/Organize.py`): try the two
patterns in `FOLDERNAME_PATTERNS` order — author-first, then title-first — and
return the raw (unstripped) group dictionary of the first pattern that matches,
as an (author, title) pair; `None` models the empty dictionary returned when
neither pattern matches. -/
def parse_foldername (foldername : List Char) : Option (List Char × List Char) :=
  match matchAuthorTitle foldername with
  | some g => some g
  | none => (matchTitleAuthor foldername).map fun g => (g.2, g.1)

/-- The character class of `_illegal_pattern` in `src/audiobookcleanr/utils.py`. -/
def illegalChars : List Char := ['<', '>', ':', '"', '/', '\\', '|', '?', '*']

/-- Embedding of `utils.sanitize_filename`: `re.sub` replaces every occurrence
of an illegal character with the empty string, i.e. filters them out. -/
def sanitize_filename (s : List Char) : List Char :=
  s.filter (fun c => !(illegalChars.contains c))

/-- The string whose MD5 hexdigest `MetadataCache._generate_key`
(`src/audiobookz_organizer/cache.py`) returns:
`f"{title.lower().strip()}|{author.lower().strip()}"`.  MD5 is a fixed
function, so two calls produce equal keys whenever their `genKeyInput` strings
are equal; the key is modelled by this hash preimage. -/
def genKeyInput (title author : List Char) : List Char :=
  pyStrip (pyLower title) ++ '|' :: pyStrip (pyLower author)

/-- The dictionary `fetch_book_details` returns on success
(`src/audiobookz_organizer/fetcher.py`): it always carries exactly the keys
`genre` and `year`. -/
structure FetchResult where
  genre : List Char
  year : List Char
  deriving DecidableEq

/-- A cache entry as read back by `MetadataCache.get`; the fetcher accesses only
the `genre` and `year` keys, each with a sentinel default. -/
structure CacheEntry where
  genre : Option (List Char)
  year : Option (List Char)
  deriving DecidableEq

/-- The `volumeInfo` payload of the first API result; `none` in a field models a
missing key. -/
structure VolumeData where
  categories : Option (List (List Char))
  publishedDate : Option (List Char)
  deriving DecidableEq

/-- One element of the `items` array.  `volumeInfo = none` models a missing or
empty (falsy) `volumeInfo` dictionary, which the source treats identically. -/
structure ApiItem where
  volumeInfo : Option VolumeData
  deriving DecidableEq

/-- The parsed JSON body of a 200 response: `totalItems` (read via
`data.get("totalItems", 0)`) and `items` (`none` models a missing key, `some
[]` an empty list — both falsy for `if not items`). -/
structure ApiBody where
  totalItems : Option Int
  items : Option (List ApiItem)
  deriving DecidableEq

/-- Outcome of `requests.get`: a raised `RequestException`, or a response with
a status code and parsed JSON body. -/
inductive ApiResponse where
  | failure
  | success (status : Nat) (body : ApiBody)
  deriving DecidableEq

/-- External world seen by one `fetch_book_details` call: the cache contents
(keyed by the generated key) and the network response it would receive. -/
structure FetchEnv where
  cache : List Char → Option CacheEntry
  response : ApiResponse

/-- Effects of one `fetch_book_details` call: whether the cache was consulted,
whether the network was called, and the cache write performed (key and stored
result), if any. -/
structure FetchEffects where
  cacheChecked : Bool
  networkCalled : Bool
  cacheWrite : Option (List Char × FetchResult)
  deriving DecidableEq

/-- Effects of a call that touches neither the cache nor the network. -/
def noFetchEffects : FetchEffects := ⟨false, false, none⟩

/-- Python `published_date.split("-")[0]`: the prefix before the first hyphen
(the whole string when there is none). -/
def pySplitHead (s : List Char) : List Char := s.takeWhile (fun c => c ≠ '-')

/-- Embedding of `fetch_book_details` (`src/audiobookz_organizer/fetcher.py`).
Empty title or author returns immediately.  With caching on, a cache hit
returns the cached genre/year.  Otherwise the network is consulted: a request
exception, a non-200 status, `totalItems == 0`, a missing or empty `items`
list, and a missing/empty `volumeInfo` each return `None`.  On success the
genre is `categories[0]` of `volumeInfo.get("categories", ["Unknown Genre"])`
— an `IndexError` (modelled by `Except.error`) if the key is present but the
list empty — the year is the prefix of `publishedDate` before the first
hyphen, and the result is stored in the cache before being returned. -/
def fetch_book_details (title author : List Char) (useCache : Bool)
    (env : FetchEnv) : Except Unit (Option FetchResult) × FetchEffects :=
  if title = [] ∨ author = [] then (.ok none, noFetchEffects)
  else
    match (if useCache then env.cache (genKeyInput title author) else none) with
    | some entry =>
        (.ok (some ⟨entry.genre.getD unknownGenre, entry.year.getD yearZero⟩),
         ⟨true, false, none⟩)
    | none =>
      match env.response with
      | .failure => (.ok none, ⟨useCache, true, none⟩)
      | .success status body =>
        if status ≠ 200 then (.ok none, ⟨useCache, true, none⟩)
        else if body.totalItems.getD 0 = 0 then (.ok none, ⟨useCache, true, none⟩)
        else
          match body.items with
          | none => (.ok none, ⟨useCache, true, none⟩)
          | some [] => (.ok none, ⟨useCache, true, none⟩)
          | some (item :: _) =>
            match item.volumeInfo with
            | none => (.ok none, ⟨useCache, true, none⟩)
            | some vi =>
              match vi.categories.getD [unknownGenre] with
              | [] => (.error (), ⟨useCache, true, none⟩)
              | c :: _ =>
                let result : FetchResult :=
                  ⟨c, pySplitHead (vi.publishedDate.getD yearZero)⟩
                (.ok (some result),
                 ⟨useCache, true,
                  if useCache then some (genKeyInput title author, result) else none⟩)

/-- A file's current ID3 frames, as an association list from frame name to its
textual value (`str(frame)`); a missing binding models an absent frame. -/
abbrev TagMap := List (List Char × List Char)

/-- Python `tags.get(name)` on a `TagMap`: the first binding for `name`. -/
def lookupTag (tags : TagMap) (name : List Char) : Option (List Char) :=
  (tags.find? (fun p => p.1 == name)).map (fun p => p.2)

/-- Python dict assignment `tags[name] = frame`, observed through `lookupTag`:
the new binding shadows any previous one. -/
def setTag (tags : TagMap) (name value : List Char) : TagMap :=
  (name, value) :: tags

/-- The ordered `tag_mappings` of `AudioTagger._update_mp3_tags`
(`src/audiobookcleanr/tagger.py`): ID3 frame name mapped to the resolved
audiobook value written there. -/
def tagMappings (ab : Audiobook) : List (List Char × List Char) :=
  [("TIT2".toList, ab.title), ("TPE1".toList, ab.author),
   ("TALB".toList, ab.title), ("TPE2".toList, ab.author),
   ("TCON".toList, ab.genre), ("TDRC".toList, ab.year)]

/-- One iteration of the tag loop of `_update_mp3_tags`: the guard is
`if value and value != "Unknown"` (truthiness = nonempty); the inner test
`if not current_value or str(current_value) != value` — frame absent or its
text different — is exactly the disequality of the optional current value with
`some value`; in dry-run mode the write is skipped but the change is still
counted as an update.  The state is (current tags, updated flag, staged frame
names in order). -/
def mp3Step (dryRun : Bool) (st : TagMap × Bool × List (List Char))
    (m : List Char × List Char) : TagMap × Bool × List (List Char) :=
  if m.2 ≠ [] ∧ m.2 ≠ "Unknown".toList then
    if lookupTag st.1 m.1 ≠ some m.2 then
      ((if dryRun then st.1 else setTag st.1 m.1 m.2), true, st.2.2 ++ [m.1])
    else st
  else st

/-- The tag loop of `_update_mp3_tags` over all six mappings. -/
def mp3Fold (ab : Audiobook) (tags : TagMap) (dryRun : Bool) :
    TagMap × Bool × List (List Char) :=
  (tagMappings ab).foldl (mp3Step dryRun) (tags, false, [])

/-- Result of `_update_mp3_tags` on one file: final frames, the returned
`updated` flag, the frames staged for update, and whether `audio.save()` ran
(exactly when something was updated and dry_run is false). -/
structure Mp3UpdateResult where
  newTags : TagMap
  updated : Bool
  staged : List (List Char)
  saved : Bool
  deriving DecidableEq

/-- Embedding of `AudioTagger._update_mp3_tags`. -/
def updateMp3Tags (ab : Audiobook) (tags : TagMap) (dryRun : Bool) :
    Mp3UpdateResult :=
  { newTags := (mp3Fold ab tags dryRun).1
    updated := (mp3Fold ab tags dryRun).2.1
    staged := (mp3Fold ab tags dryRun).2.2
    saved := (mp3Fold ab tags dryRun).2.1 && !dryRun }

/-- The `files_updated` count of `AudioTagger.update_tags` over the folder's
audio files (each given by its current tag map). -/
def countUpdated (ab : Audiobook) (files : List TagMap) (dryRun : Bool) : Nat :=
  (files.filter (fun f => (updateMp3Tags ab f dryRun).updated)).length

/-- The number of files whose tags `update_tags` persists to disk, i.e. for
which `audio.save()` runs. -/
def countSaved (ab : Audiobook) (files : List TagMap) (dryRun : Bool) : Nat :=
  (files.filter (fun f => (updateMp3Tags ab f dryRun).saved)).length

/-- The enrichment assignments of `core._process_folder`
(`src/audiobookz_organizer/core.py`): when the fetcher returned a result,
`audiobook.genre = details.get("genre", audiobook.genre)` and likewise for
year.  `fetch_book_details` always returns a dictionary containing both keys,
so on a result the fetched values are taken. -/
def enrichStep (ab : Audiobook) (details : Option FetchResult) : Audiobook :=
  match details with
  | some d => { ab with genre := d.genre, year := d.year }
  | none => ab

/-- Per-folder inputs of `core._process_folder` that come from the outside
world: the folder's leaf name, the result of `extract_metadata_from_folder`
(author and title — that function returns only these two keys, or `None`), the
result `fetch_book_details` would produce when fetching is requested, the
result of `infer_genre_from_text`, the current tag maps of the folder's audio
files, whether the computed target path already exists, and whether the rename
call succeeds. -/
structure FolderEnv where
  name : List Char
  metadata : Option (List Char × List Char)
  details : Option FetchResult
  inferredGenre : List Char
  files : List TagMap
  targetExists : Bool
  renameOk : Bool

/-- Filesystem mutations of one `_process_folder` call: how many audio files
had their tags saved, whether `target_path.parent.mkdir` was called, and
whether the source folder was renamed. -/
structure FsEffects where
  filesSaved : Nat
  mkdirCalled : Bool
  renamed : Bool
  deriving DecidableEq

/-- Effects of a call that mutates nothing. -/
def noFsEffects : FsEffects := ⟨0, false, false⟩

/-- Report message of `_process_folder`, abstracting its formatted strings.
The moved/dry-run messages carry the reported tag-update file count when tag
writing was requested. -/
inductive FolderMsg where
  | skippedNoMetadata
  | skippedTargetExists
  | dryRunWouldMove (tagUpdates : Option Nat)
  | moved (tagUpdates : Option Nat)
  deriving DecidableEq

/-- The `Audiobook` that `_process_folder` builds before optional enrichment:
from extracted file metadata when available (genre and year take the
`metadata.get` sentinel defaults, since `extract_metadata_from_folder`
supplies only author and title), otherwise from `parse_folder`. -/
def resolvedAudiobook (env : FolderEnv) : Option Audiobook :=
  match env.metadata with
  | some m => some { source_path := env.name, author := m.1, title := m.2,
                     genre := unknownGenre, year := yearZero }
  | none => parse_folder env.name

/-- Embedding of `core._process_folder`.  Control flow follows the source:
resolve metadata (else report Skipped/no-metadata), optionally enrich,
optionally infer a genre when still unknown, optionally update tags (dry_run =
not commit), then compute the target: if it exists report Skipped/target-exists;
in dry-run report the would-be move; otherwise mkdir the parent and rename,
raising `AudioBookProcessError` (modelled by `Except.error`) on an `OSError`. -/
def processFolder (env : FolderEnv) (commit fetchMeta writeTags : Bool) :
    Except Unit FolderMsg × FsEffects :=
  match resolvedAudiobook env with
  | none => (.ok .skippedNoMetadata, noFsEffects)
  | some ab0 =>
    let ab1 := if fetchMeta then enrichStep ab0 env.details else ab0
    let ab2 := if ab1.genre = unknownGenre ∧ env.inferredGenre ≠ unknownGenre
      then { ab1 with genre := env.inferredGenre } else ab1
    let tagUpdates : Option Nat :=
      if writeTags then some (countUpdated ab2 env.files (!commit)) else none
    let saved : Nat :=
      if writeTags then countSaved ab2 env.files (!commit) else 0
    if env.targetExists then
      (.ok .skippedTargetExists,
       { filesSaved := saved, mkdirCalled := false, renamed := false })
    else if !commit then
      (.ok (.dryRunWouldMove tagUpdates),
       { filesSaved := saved, mkdirCalled := false, renamed := false })
    else if env.renameOk then
      (.ok (.moved tagUpdates),
       { filesSaved := saved, mkdirCalled := true, renamed := true })
    else
      (.error (),
       { filesSaved := saved, mkdirCalled := true, renamed := false })

/-- Report message of `Organize.rename_and_organize_folder`. -/
inductive OrganizeMsg where
  | wouldMove
  | moved
  | skippedTargetExists
  deriving DecidableEq

/-- Filesystem mutations of one `rename_and_organize_folder` call. -/
structure OrgEffects where
  dirCreated : Bool
  renamed : Bool
  deriving DecidableEq

/-- Embedding of `Organize.rename_and_organize_folder` (`src/Organize.py`): in
dry-run mode only print the would-be move; in commit mode call
`target_path.parent.mkdir(parents=True, exist_ok=True)` — which creates
directories exactly when the parent is missing — then rename only when the
target does not already exist. -/
def renameAndOrganizeFolder (targetExists parentExists dryRun : Bool) :
    OrganizeMsg × OrgEffects :=
  if dryRun then (.wouldMove, ⟨false, false⟩)
  else
    let created := !parentExists
    if !targetExists then (.moved, ⟨created, true⟩)
    else (.skippedTargetExists, ⟨created, false⟩)

/-- C8: `sanitize_filename` is idempotent, and no character of its output lies
in the illegal set `< > : " / \ | ? *`. -/
theorem sanitize_filename_idempotent_and_clean (s : List Char) :
    sanitize_filename (sanitize_filename s) = sanitize_filename s ∧
    ∀ c ∈ sanitize_filename s, c ∉ illegalChars := by
  constructor
  · simp [sanitize_filename, List.filter_filter]
  · intro c hc
    rw [sanitize_filename, List.mem_filter] at hc
    intro hmem
    have : illegalChars.contains c = true := List.elem_eq_true_of_mem hmem
    rw [this] at hc
    exact absurd hc.2 (by decide)

/-- Witness for C8 at a concrete string containing illegal characters. -/
theorem sanitize_filename_idempotent_and_clean_witness :
    sanitize_filename (sanitize_filename "a<b|c?.mp3".toList) =
      sanitize_filename "a<b|c?.mp3".toList ∧
    ∀ c ∈ sanitize_filename "a<b|c?.mp3".toList, c ∉ illegalChars :=
  sanitize_filename_idempotent_and_clean "a<b|c?.mp3".toList

/-- C7 counterexample: the pairs ("a|b", "c") and ("a", "b|c") have distinct
normalized title fields, yet their key preimages — and hence their MD5 cache
keys — coincide, because the separator bar can also occur inside a field.
This refutes the claim that distinct normalized (title, author) pairs always
produce distinct keys. -/
theorem genKeyInput_not_injective :
    genKeyInput "a|b".toList "c".toList = genKeyInput "a".toList "b|c".toList ∧
    pyStrip (pyLower "a|b".toList) ≠ pyStrip (pyLower "a".toList) := by decide

/-- C7 amended: the cache key is invariant under case and surrounding
whitespace — it depends only on the lower-cased, stripped title and author
fields (the true half of the claim; injectivity on distinct normalized pairs
fails, see the counterexample). -/
theorem genKeyInput_invariant (t1 a1 t2 a2 : List Char)
    (ht : pyStrip (pyLower t1) = pyStrip (pyLower t2))
    (ha : pyStrip (pyLower a1) = pyStrip (pyLower a2)) :
    genKeyInput t1 a1 = genKeyInput t2 a2 := by
  rw [genKeyInput, genKeyInput, ht, ha]

/-- Witness for C7's amended theorem: case and whitespace changes of both
fields leave the key unchanged. -/
theorem genKeyInput_invariant_witness :
    pyStrip (pyLower "  The Stand ".toList) = pyStrip (pyLower "the stand".toList) ∧
    pyStrip (pyLower " KING".toList) = pyStrip (pyLower "king".toList) ∧
    genKeyInput "  The Stand ".toList " KING".toList =
      genKeyInput "the stand".toList "king".toList :=
  ⟨by decide, by decide,
   genKeyInput_invariant "  The Stand ".toList " KING".toList
     "the stand".toList "king".toList (by decide) (by decide)⟩

/-- With an empty title or author the cache branch is not reached, so reducing
the guard closes the first goal of C4 directly. -/
lemma fetch_empty_args (title author : List Char) (useCache : Bool)
    (env : FetchEnv) (h : title = [] ∨ author = []) :
    fetch_book_details title author useCache env = (.ok none, noFetchEffects) := by
  rw [fetch_book_details, if_pos h]

/-- On a cache miss the guarded cache expression reduces to `none`. -/
lemma fetch_cache_miss (title author : List Char) (useCache : Bool)
    (env : FetchEnv)
    (hc : useCache = true → env.cache (genKeyInput title author) = none) :
    (if useCache then env.cache (genKeyInput title author) else none) = none := by
  cases useCache with
  | false => rfl
  | true => simpa using hc rfl

/-- C4: `fetch_book_details` returns `None` — and does not raise — in every
non-success case.  With an empty title or author it returns immediately,
consulting neither the cache nor the network; past a cache miss, a request
exception, a non-200 status, a zero `totalItems`, a missing or empty `items`
list, and a missing (or empty, hence falsy) `volumeInfo` each produce `.ok
none` rather than an error. -/
theorem fetch_book_details_nonsuccess (title author : List Char)
    (useCache : Bool) (env : FetchEnv)
    (hc : useCache = true → env.cache (genKeyInput title author) = none) :
    (title = [] ∨ author = [] →
      fetch_book_details title author useCache env = (.ok none, noFetchEffects)) ∧
    (env.response = .failure →
      (fetch_book_details title author useCache env).1 = .ok none) ∧
    (∀ status body, env.response = .success status body → status ≠ 200 →
      (fetch_book_details title author useCache env).1 = .ok none) ∧
    (∀ status body, env.response = .success status body →
      body.totalItems.getD 0 = 0 →
      (fetch_book_details title author useCache env).1 = .ok none) ∧
    (∀ status body, env.response = .success status body →
      body.items = none ∨ body.items = some [] →
      (fetch_book_details title author useCache env).1 = .ok none) ∧
    (∀ status body item rest, env.response = .success status body →
      body.items = some (item :: rest) → item.volumeInfo = none →
      (fetch_book_details title author useCache env).1 = .ok none) := by
  refine ⟨fetch_empty_args title author useCache env, ?_, ?_, ?_, ?_, ?_⟩ <;>
    by_cases hempty : title = [] ∨ author = []
  · intro hr
    rw [fetch_empty_args title author useCache env hempty]
  · intro hr
    rw [fetch_book_details, if_neg hempty, fetch_cache_miss title author useCache env hc, hr]
  · intro status body hr hs
    rw [fetch_empty_args title author useCache env hempty]
  · intro status body hr hs
    rw [fetch_book_details, if_neg hempty, fetch_cache_miss title author useCache env hc, hr]
    simp only [if_pos hs]
  · intro status body hr hti
    rw [fetch_empty_args title author useCache env hempty]
  · intro status body hr hti
    rw [fetch_book_details, if_neg hempty, fetch_cache_miss title author useCache env hc, hr]
    by_cases hs : status ≠ 200
    · simp only [if_pos hs]
    · simp only [if_neg hs, if_pos hti]
  · intro status body hr hit
    rw [fetch_empty_args title author useCache env hempty]
  · intro status body hr hit
    rw [fetch_book_details, if_neg hempty, fetch_cache_miss title author useCache env hc, hr]
    by_cases hs : status ≠ 200
    · simp only [if_pos hs]
    · simp only [if_neg hs]
      by_cases hti : body.totalItems.getD 0 = 0
      · simp only [if_pos hti]
      · simp only [if_neg hti]
        rcases hit with h | h <;> rw [h]
  · intro status body item rest hr hit hvi
    rw [fetch_empty_args title author useCache env hempty]
  · intro status body item rest hr hit hvi
    rw [fetch_book_details, if_neg hempty, fetch_cache_miss title author useCache env hc, hr]
    by_cases hs : status ≠ 200
    · simp only [if_pos hs]
    · simp only [if_neg hs]
      by_cases hti : body.totalItems.getD 0 = 0
      · simp only [if_pos hti]
      · simp only [if_neg hti, hit, hvi]

/-- Witness for C4: concrete calls covering an empty-author immediate return
and a request-exception return. -/
theorem fetch_book_details_nonsuccess_witness :
    (fetch_book_details "T".toList [] false ⟨fun _ => none, .failure⟩ =
      (.ok none, noFetchEffects)) ∧
    (fetch_book_details "T".toList "A".toList false ⟨fun _ => none, .failure⟩).1 =
      .ok none := by
  have h := fetch_book_details_nonsuccess "T".toList "A".toList false
    ⟨fun _ => none, .failure⟩ (fun hfalse => nomatch hfalse)
  refine ⟨?_, h.2.1 rfl⟩
  have h0 := fetch_book_details_nonsuccess "T".toList ([] : List Char) false
    ⟨fun _ => none, .failure⟩ (fun hfalse => nomatch hfalse)
  exact h0.1 (Or.inr rfl)

/-- Splitting at the first hyphen recovers a hyphen-free prefix. -/
lemma pySplitHead_append (y r : List Char) (hy : '-' ∉ y) :
    pySplitHead (y ++ '-' :: r) = y := by
  induction y with
  | nil => rfl
  | cons a t ih =>
      have ha : a ≠ '-' := fun he => hy (he ▸ List.mem_cons_self a t)
      have ht : '-' ∉ t := fun hm => hy (List.mem_cons_of_mem a hm)
      simp only [pySplitHead, List.cons_append, List.takeWhile_cons,
        decide_eq_true ha]
      exact congrArg (a :: ·) (ih ht)

/-- C5: past a cache miss, on a 200 response with a nonzero `totalItems`, a
first item and a (nonempty) `volumeInfo`, `fetch_book_details` returns the
first listed category of the first result as genre (the sentinel "Unknown
Genre" when `categories` is absent), the prefix of the `publishedDate` before
the first hyphen as year — the 4-digit year for a date of the form
`YYYY-rest`, and the sentinel "0000" when the date is absent — and, when
caching is on, records this genre/year result in the cache before returning. -/
theorem fetch_book_details_success (title author : List Char) (useCache : Bool)
    (env : FetchEnv) (status : Nat) (body : ApiBody) (item : ApiItem)
    (rest : List ApiItem) (vi : VolumeData)
    (hne : ¬(title = [] ∨ author = []))
    (hc : useCache = true → env.cache (genKeyInput title author) = none)
    (hr : env.response = .success status body)
    (hs : status = 200)
    (hti : body.totalItems.getD 0 ≠ 0)
    (hit : body.items = some (item :: rest))
    (hvi : item.volumeInfo = some vi) :
    (∀ c cs, vi.categories = some (c :: cs) →
      fetch_book_details title author useCache env =
        (.ok (some ⟨c, pySplitHead (vi.publishedDate.getD yearZero)⟩),
         ⟨useCache, true,
          if useCache then
            some (genKeyInput title author,
              ⟨c, pySplitHead (vi.publishedDate.getD yearZero)⟩)
          else none⟩)) ∧
    (vi.categories = none →
      fetch_book_details title author useCache env =
        (.ok (some ⟨unknownGenre, pySplitHead (vi.publishedDate.getD yearZero)⟩),
         ⟨useCache, true,
          if useCache then
            some (genKeyInput title author,
              ⟨unknownGenre, pySplitHead (vi.publishedDate.getD yearZero)⟩)
          else none⟩)) ∧
    (∀ y r, vi.publishedDate = some (y ++ '-' :: r) → '-' ∉ y →
      pySplitHead (vi.publishedDate.getD yearZero) = y) ∧
    (vi.publishedDate = none →
      pySplitHead (vi.publishedDate.getD yearZero) = yearZero) := by
  refine ⟨?_, ?_, ?_, ?_⟩
  · intro c cs hcat
    rw [fetch_book_details, if_neg hne,
      fetch_cache_miss title author useCache env hc, hr]
    simp only [hs, if_neg (by omega : ¬(200 ≠ 200)), if_neg hti, hit, hvi, hcat,
      Option.getD_some]
  · intro hcat
    rw [fetch_book_details, if_neg hne,
      fetch_cache_miss title author useCache env hc, hr]
    simp only [hs, if_neg (by omega : ¬(200 ≠ 200)), if_neg hti, hit, hvi, hcat,
      Option.getD_none, unknownGenre]
  · intro y r hdate hy
    rw [hdate, Option.getD_some]
    exact pySplitHead_append y r hy
  · intro hdate
    rw [hdate, Option.getD_none]
    rfl

/-- Witness for C5: the end-to-end example of the spec — a single result with
categories `["Fiction"]` and published date `2001-01-01` resolves to genre
"Fiction" and year "2001", and the result is written to the cache. -/
theorem fetch_book_details_success_witness :
    fetch_book_details "Title".toList "Author".toList true
      ⟨fun _ => none,
       .success 200
         ⟨some 1, some [⟨some ⟨some ["Fiction".toList], some "2001-01-01".toList⟩⟩]⟩⟩ =
      (.ok (some ⟨"Fiction".toList, "2001".toList⟩),
       ⟨true, true,
        some (genKeyInput "Title".toList "Author".toList,
          ⟨"Fiction".toList, "2001".toList⟩)⟩) := by
  have h := fetch_book_details_success "Title".toList "Author".toList true
    ⟨fun _ => none,
     .success 200
       ⟨some 1, some [⟨some ⟨some ["Fiction".toList], some "2001-01-01".toList⟩⟩]⟩⟩
    200 ⟨some 1, some [⟨some ⟨some ["Fiction".toList], some "2001-01-01".toList⟩⟩]⟩
    ⟨some ⟨some ["Fiction".toList], some "2001-01-01".toList⟩⟩ []
    ⟨some ["Fiction".toList], some "2001-01-01".toList⟩
    (by decide) (fun _ => rfl) rfl rfl (by decide) rfl rfl
  have h1 := h.1 "Fiction".toList [] rfl
  rw [h1]
  rfl

/-- In dry-run mode `audio.save()` never runs for any file, since `saved`
is the conjunction of the updated flag with the negated dry-run flag. -/
lemma countSaved_dryRun (ab : Audiobook) (files : List TagMap) :
    countSaved ab files true = 0 := by
  simp [countSaved, updateMp3Tags]

/-- C6: with `commit = False`, `_process_folder` performs no filesystem
mutation for any input — no tags are saved, no directory is created, no folder
is renamed — and the same holds for `rename_and_organize_folder` in dry-run
mode; only report messages are produced. -/
theorem processFolder_dryRun_no_mutation (env : FolderEnv)
    (fetchMeta writeTags : Bool) :
    (processFolder env false fetchMeta writeTags).2 = noFsEffects ∧
    (∀ te pe, (renameAndOrganizeFolder te pe true).2 = ⟨false, false⟩) := by
  constructor
  · rw [processFolder]
    cases hres : resolvedAudiobook env with
    | none => rfl
    | some ab0 =>
        cases hw : writeTags <;> cases hte : env.targetExists <;>
          simp [hte, countSaved_dryRun, noFsEffects]
  · intro te pe
    rfl

/-- Witness for C6 at a concrete environment with a file needing updates. -/
theorem processFolder_dryRun_no_mutation_witness :
    (processFolder
      ⟨"B - A".toList, some ("Auth".toList, "Tit".toList), none, unknownGenre,
       [[]], false, true⟩ false false true).2 = noFsEffects ∧
    (∀ te pe, (renameAndOrganizeFolder te pe true).2 = ⟨false, false⟩) :=
  processFolder_dryRun_no_mutation
    ⟨"B - A".toList, some ("Auth".toList, "Tit".toList), none, unknownGenre,
     [[]], false, true⟩ false true

/-- Folder environment of the C1 counterexample: metadata resolves, the target
path already exists, and the folder holds one audio file with no tags yet. -/
def c1Env : FolderEnv :=
  { name := "B - A".toList, metadata := some ("Auth".toList, "Tit".toList),
    details := none, inferredGenre := unknownGenre, files := [[]],
    targetExists := true, renameOk := true }

/-- C1 counterexample: with tag writing requested in commit mode,
`_process_folder` reports Skipped (target exists) yet has already saved tag
updates to one source audio file — the tag write happens before the
target-exists check — so the processing is not mutation-free; and in
`Organize.py` the dry-run path reports a would-move instead of Skipped even
though the target exists. -/
theorem processFolder_skip_still_mutates :
    processFolder c1Env true false true =
      (.ok .skippedTargetExists, ⟨1, false, false⟩) ∧
    (1 : Nat) ≠ 0 ∧
    renameAndOrganizeFolder true true true = (.wouldMove, ⟨false, false⟩) :=
  ⟨rfl, by decide, rfl⟩

/-- C1 amended: when the computed target path exists (and metadata resolved),
`_process_folder` reports Skipped(TargetExists), does not rename and calls no
mkdir, and — unless tag writing is enabled in commit mode, in which case tag
updates are already saved to the source files before the check — saves no
file; a rename happens only when the target does not exist.  The commit path
of `rename_and_organize_folder` likewise skips without renaming and (the
parent directory existing, as it must when the target exists) creates no
directory, and renames only when the target is absent. -/
theorem processFolder_targetExists_skips (env : FolderEnv)
    (commit fetchMeta writeTags : Bool)
    (hres : resolvedAudiobook env ≠ none)
    (hte : env.targetExists = true) :
    (processFolder env commit fetchMeta writeTags).1 = .ok .skippedTargetExists ∧
    (processFolder env commit fetchMeta writeTags).2.renamed = false ∧
    (processFolder env commit fetchMeta writeTags).2.mkdirCalled = false ∧
    (writeTags = false ∨ commit = false →
      (processFolder env commit fetchMeta writeTags).2.filesSaved = 0) ∧
    (∀ env2 c2 f2 w2, (processFolder env2 c2 f2 w2).2.renamed = true →
      env2.targetExists = false) ∧
    renameAndOrganizeFolder true true false =
      (.skippedTargetExists, ⟨false, false⟩) ∧
    (∀ te pe dr, (renameAndOrganizeFolder te pe dr).2.renamed = true →
      te = false) := by
  cases hr : resolvedAudiobook env with
  | none => exact absurd hr hres
  | some ab0 =>
      refine ⟨?_, ?_, ?_, ?_, ?_, rfl, ?_⟩
      · rw [processFolder, hr]
        simp [hte]
      · rw [processFolder, hr]
        simp [hte]
      · rw [processFolder, hr]
        simp [hte]
      · rintro (hw | hcommit)
        · rw [processFolder, hr]
          simp [hte, hw]
        · rw [processFolder, hr]
          simp [hte, hcommit, countSaved_dryRun]
      · intro env2 c2 f2 w2 hren
        cases h2 : env2.targetExists with
        | false => rfl
        | true =>
            exfalso
            rw [processFolder] at hren
            cases hr2 : resolvedAudiobook env2 with
            | none => rw [hr2] at hren; simp [noFsEffects] at hren
            | some b0 => rw [hr2] at hren; simp [h2] at hren
      · intro te pe dr hren
        cases dr with
        | true => simp [renameAndOrganizeFolder] at hren
        | false =>
            cases te with
            | false => rfl
            | true => exact absurd hren (by simp [renameAndOrganizeFolder])

/-- Witness for C1's amended theorem at a concrete environment (tag writing
off, commit on, target exists). -/
theorem processFolder_targetExists_skips_witness :
    resolvedAudiobook c1Env ≠ none ∧
    c1Env.targetExists = true ∧
    (processFolder c1Env true false false).1 = .ok .skippedTargetExists ∧
    (processFolder c1Env true false false).2.filesSaved = 0 := by
  have h := processFolder_targetExists_skips c1Env true false false
    (by decide) (by decide)
  exact ⟨by decide, by decide, h.1, h.2.2.2.1 (Or.inl rfl)⟩

/-- Every audiobook produced by `parse_folder` carries the sentinel genre and
year, since `_match_pattern` fills only path, author and title. -/
lemma parse_folder_defaults (p : List Char) (ab : Audiobook)
    (h : parse_folder p = some ab) :
    ab.genre = unknownGenre ∧ ab.year = yearZero := by
  have hAT : ∀ b, matchPatternAT p = some b → b.genre = unknownGenre ∧ b.year = yearZero := by
    intro b hb
    rw [matchPatternAT] at hb
    cases hat : matchAuthorTitle p with
    | none => rw [hat] at hb; simp at hb
    | some g =>
        rw [hat] at hb
        simp only [Option.map_some', Option.some.injEq] at hb
        rw [← hb]; exact ⟨rfl, rfl⟩
  rw [parse_folder] at h
  cases hta : matchPatternTA p with
  | none =>
      rw [hta] at h
      exact hAT ab h
  | some cand =>
      rw [hta] at h
      cases hart : startsWithArticle (pyLower cand.author) with
      | true =>
          simp only [hart, if_pos] at h
          exact hAT ab h
      | false =>
          simp only [hart, Bool.false_eq_true, if_false, Option.some.injEq] at h
          subst h
          rw [matchPatternTA] at hta
          cases hma : matchTitleAuthor p with
          | none => rw [hma] at hta; simp at hta
          | some g =>
              rw [hma] at hta
              simp only [Option.map_some', Option.some.injEq] at hta
              rw [← hta]; exact ⟨rfl, rfl⟩

/-- C3 counterexample: the enrichment step of `_process_folder` overwrites a
genre that is already resolved (not the unknown sentinel) with the fetched
value, refuting that already-resolved genres are left unchanged by it. -/
theorem enrichStep_overwrites_known_genre :
    (enrichStep
        ⟨[], "A".toList, "T".toList, "Fiction".toList, "1999".toList, false⟩
        (some ⟨"Mystery".toList, "2005".toList⟩)).genre = "Mystery".toList ∧
    "Fiction".toList ≠ unknownGenre ∧
    "Fiction".toList ≠ "Mystery".toList := by decide

/-- C3 amended: when the fetcher returns a result, the enrichment step
unconditionally overwrites genre and year with the fetched values (the
returned dictionary always carries both keys) and modifies no other field;
without a result it changes nothing.  In `_process_folder` the audiobook's
genre and year still hold the unknown sentinels at the enrichment point —
tag extraction supplies only author and title, and `parse_folder` leaves the
defaults — so no value actually resolved by tag extraction is ever lost. -/
theorem enrichStep_frame (ab : Audiobook) (d : FetchResult) (env : FolderEnv) :
    (enrichStep ab (some d)).genre = d.genre ∧
    (enrichStep ab (some d)).year = d.year ∧
    (enrichStep ab (some d)).author = ab.author ∧
    (enrichStep ab (some d)).title = ab.title ∧
    (enrichStep ab (some d)).source_path = ab.source_path ∧
    (enrichStep ab (some d)).is_multipart = ab.is_multipart ∧
    enrichStep ab none = ab ∧
    (∀ ab0, resolvedAudiobook env = some ab0 →
      ab0.genre = unknownGenre ∧ ab0.year = yearZero) := by
  refine ⟨rfl, rfl, rfl, rfl, rfl, rfl, rfl, ?_⟩
  intro ab0 h0
  rw [resolvedAudiobook] at h0
  cases hm : env.metadata with
  | some m =>
      rw [hm] at h0
      simp only [Option.some.injEq] at h0
      rw [← h0]; exact ⟨rfl, rfl⟩
  | none =>
      rw [hm] at h0
      exact parse_folder_defaults env.name ab0 h0

/-- Witness for C3's amended theorem at concrete values. -/
theorem enrichStep_frame_witness :
    (enrichStep { source_path := [], author := "A".toList, title := "T".toList }
        (some ⟨"Fiction".toList, "2001".toList⟩)).genre = "Fiction".toList ∧
    (enrichStep { source_path := [], author := "A".toList, title := "T".toList }
        (some ⟨"Fiction".toList, "2001".toList⟩)).author = "A".toList ∧
    (∀ ab0, resolvedAudiobook c1Env = some ab0 →
      ab0.genre = unknownGenre ∧ ab0.year = yearZero) := by
  have h := enrichStep_frame
    { source_path := [], author := "A".toList, title := "T".toList }
    ⟨"Fiction".toList, "2001".toList⟩ c1Env
  exact ⟨h.1, h.2.2.1, h.2.2.2.2.2.2.2⟩

/-- The staging condition of the `_update_mp3_tags` loop for one mapping
against a file's current frames: the value is truthy (nonempty), differs from
the literal string "Unknown", and the current frame is absent or differs. -/
def stageTest (tags : TagMap) (m : List Char × List Char) : Bool :=
  decide (m.2 ≠ [] ∧ m.2 ≠ "Unknown".toList ∧ lookupTag tags m.1 ≠ some m.2)

/-- Writing one frame leaves lookups of other frame names unchanged. -/
lemma lookupTag_setTag_ne (tags : TagMap) (n v q : List Char) (h : q ≠ n) :
    lookupTag (setTag tags n v) q = lookupTag tags q := by
  rw [setTag, lookupTag, lookupTag, List.find?_cons_of_neg _ (by simpa using Ne.symm h)]

/-- A mapping meeting the staging condition makes `mp3Step` record it. -/
lemma mp3Step_stage (d : Bool) (tags : TagMap) (u : Bool)
    (stg : List (List Char)) (m : List Char × List Char)
    (h1 : m.2 ≠ []) (h2 : m.2 ≠ "Unknown".toList)
    (h3 : lookupTag tags m.1 ≠ some m.2) :
    mp3Step d (tags, u, stg) m =
      ((if d then tags else setTag tags m.1 m.2), true, stg ++ [m.1]) := by
  rw [mp3Step, if_pos ⟨h1, h2⟩, if_pos h3]

/-- A mapping failing the staging condition leaves the loop state unchanged. -/
lemma mp3Step_skip (d : Bool) (tags : TagMap) (u : Bool)
    (stg : List (List Char)) (m : List Char × List Char)
    (h : ¬(m.2 ≠ [] ∧ m.2 ≠ "Unknown".toList ∧ lookupTag tags m.1 ≠ some m.2)) :
    mp3Step d (tags, u, stg) m = (tags, u, stg) := by
  rw [mp3Step]
  by_cases hg : m.2 ≠ [] ∧ m.2 ≠ "Unknown".toList
  · rw [if_pos hg]
    have hcur : lookupTag tags m.1 = some m.2 := by
      by_contra hne
      exact h ⟨hg.1, hg.2, hne⟩
    rw [if_neg (fun hk => hk hcur)]
  · rw [if_neg hg]

/-- The staged frame names accumulated by the tag loop are exactly the mappings
passing the staging condition against the original frames, in mapping order —
valid because the six frame names are distinct, so writes to earlier frames
never affect later staging decisions. -/
lemma mp3Fold_staged_aux (d : Bool) :
    ∀ (ms : List (List Char × List Char)) (tags0 tags : TagMap) (u : Bool)
      (stg : List (List Char)),
      (∀ m ∈ ms, lookupTag tags m.1 = lookupTag tags0 m.1) →
      (ms.map Prod.fst).Nodup →
      (ms.foldl (mp3Step d) (tags, u, stg)).2.2 =
        stg ++ (ms.filter (stageTest tags0)).map Prod.fst := by
  intro ms
  induction ms with
  | nil =>
      intro tags0 tags u stg _ _
      simp
  | cons m ms ih =>
      intro tags0 tags u stg hagree hnd
      have hm : lookupTag tags m.1 = lookupTag tags0 m.1 :=
        hagree m (List.mem_cons_self m ms)
      have hnd1 : m.1 ∉ ms.map Prod.fst := (List.nodup_cons.mp (by simpa using hnd)).1
      have hnd2 : (ms.map Prod.fst).Nodup := (List.nodup_cons.mp (by simpa using hnd)).2
      rw [List.foldl_cons]
      by_cases hst : m.2 ≠ [] ∧ m.2 ≠ "Unknown".toList ∧
          lookupTag tags0 m.1 ≠ some m.2
      · rw [mp3Step_stage d tags u stg m hst.1 hst.2.1 (by rw [hm]; exact hst.2.2)]
        have hagree2 : ∀ m2 ∈ ms,
            lookupTag (if d then tags else setTag tags m.1 m.2) m2.1 =
              lookupTag tags0 m2.1 := by
          intro m2 hm2
          have hne : m2.1 ≠ m.1 := fun he => hnd1 (he ▸ List.mem_map_of_mem Prod.fst hm2)
          cases d with
          | true => simpa using hagree m2 (List.mem_cons_of_mem m hm2)
          | false =>
              simp only [Bool.false_eq_true, if_false]
              rw [lookupTag_setTag_ne tags m.1 m.2 m2.1 hne]
              exact hagree m2 (List.mem_cons_of_mem m hm2)
        rw [ih tags0 _ true (stg ++ [m.1]) hagree2 hnd2]
        have hTest : stageTest tags0 m = true := by
          rw [stageTest]
          exact decide_eq_true hst
        rw [List.filter_cons_of_pos hTest, List.map_cons]
        simp [List.append_assoc]
      · rw [mp3Step_skip d tags u stg m (by rw [hm]; exact hst)]
        rw [ih tags0 tags u stg (fun m2 h2 => hagree m2 (List.mem_cons_of_mem m h2)) hnd2]
        have hTest : ¬ stageTest tags0 m = true := by
          rw [stageTest]
          exact fun hk => hst (of_decide_eq_true hk)
        rw [List.filter_cons_of_neg hTest]

/-- The staged list of `_update_mp3_tags`, characterized by the staging
condition against the file's original frames. -/
lemma updateMp3Tags_staged_eq (ab : Audiobook) (tags : TagMap) (d : Bool) :
    (updateMp3Tags ab tags d).staged =
      ((tagMappings ab).filter (stageTest tags)).map Prod.fst := by
  have hnd : ((tagMappings ab).map Prod.fst).Nodup := by
    simp [tagMappings]
  have h := mp3Fold_staged_aux d (tagMappings ab) tags tags false []
    (fun _ _ => rfl) hnd
  simpa [updateMp3Tags, mp3Fold] using h

/-- In a pair list with distinct first components, the first component
determines the second. -/
lemma pairs_snd_unique (l : List (List Char × List Char))
    (hnd : (l.map Prod.fst).Nodup) (a b b2 : List Char)
    (h1 : (a, b) ∈ l) (h2 : (a, b2) ∈ l) : b = b2 := by
  induction l with
  | nil => cases h1
  | cons x l ih =>
      have hx1 : x.1 ∉ l.map Prod.fst := (List.nodup_cons.mp (by simpa using hnd)).1
      have hnd2 : (l.map Prod.fst).Nodup := (List.nodup_cons.mp (by simpa using hnd)).2
      rcases List.mem_cons.mp h1 with he1 | ht1
      · rcases List.mem_cons.mp h2 with he2 | ht2
        · rw [← he1] at he2
          exact (((Prod.mk.injEq a b2 a b).mp he2).2).symm
        · exfalso
          apply hx1
          rw [← he1]
          exact List.mem_map.mpr ⟨(a, b2), ht2, rfl⟩
      · rcases List.mem_cons.mp h2 with he2 | ht2
        · exfalso
          apply hx1
          rw [← he2]
          exact List.mem_map.mpr ⟨(a, b), ht1, rfl⟩
        · exact ih hnd2 ht1 ht2

/-- The six ID3 frame names of the tag mapping are pairwise distinct. -/
lemma tagMappings_names_nodup (ab : Audiobook) :
    ((tagMappings ab).map Prod.fst).Nodup := by
  simp [tagMappings]

/-- C9 counterexample: the guard of the tag writer compares against the
literal string "Unknown", not against the repository's actual sentinels, so a
resolved author equal to the sentinel "Unknown Author" that differs from the
file's current artist frame is staged — and, in commit mode, saved. -/
theorem updateMp3Tags_stages_sentinel :
    "TPE1".toList ∈
      (updateMp3Tags
        { source_path := [], author := unknownAuthor, title := "T".toList,
          genre := "G".toList, year := "1999".toList }
        [("TPE1".toList, "Bob".toList)] false).staged ∧
    (updateMp3Tags
        { source_path := [], author := unknownAuthor, title := "T".toList,
          genre := "G".toList, year := "1999".toList }
        [("TPE1".toList, "Bob".toList)] false).saved = true ∧
    unknownAuthor = "Unknown Author".toList := by decide

/-- C9 amended: a tag field is staged exactly when its resolved value is
nonempty, differs from the literal string "Unknown", and differs from the
file's current frame (absent counts as different).  In particular a value
equal to the current frame, an empty value, or the literal "Unknown" is never
staged — but the multi-word sentinels such as "Unknown Author" and "0000" are
not excluded by the guard. -/
theorem updateMp3Tags_staging_rule (ab : Audiobook) (tags : TagMap) (d : Bool)
    (name value : List Char) (hmem : (name, value) ∈ tagMappings ab) :
    name ∈ (updateMp3Tags ab tags d).staged ↔
      value ≠ [] ∧ value ≠ "Unknown".toList ∧ lookupTag tags name ≠ some value := by
  rw [updateMp3Tags_staged_eq]
  constructor
  · intro hin
    obtain ⟨x, hxf, hx1⟩ := List.mem_map.mp hin
    obtain ⟨hxm, hxs⟩ := List.mem_filter.mp hxf
    have hxm2 : (name, x.2) ∈ tagMappings ab := by
      rw [← hx1]
      simpa using hxm
    have hveq : x.2 = value :=
      pairs_snd_unique (tagMappings ab) (tagMappings_names_nodup ab)
        name x.2 value hxm2 hmem
    rw [stageTest] at hxs
    have hst := of_decide_eq_true hxs
    rw [hx1, hveq] at hst
    exact hst
  · intro hp
    have hst : stageTest tags (name, value) = true := by
      rw [stageTest]
      exact decide_eq_true hp
    have hmf : (name, value) ∈ (tagMappings ab).filter (stageTest tags) :=
      List.mem_filter.mpr ⟨hmem, hst⟩
    simpa using List.mem_map_of_mem Prod.fst hmf

/-- Witness for C9's amended theorem: the artist frame is staged for a file
whose current artist differs from the resolved author. -/
theorem updateMp3Tags_staging_rule_witness :
    (("TPE1".toList, "Jane".toList) ∈ tagMappings
      { source_path := [], author := "Jane".toList, title := "T".toList,
        genre := "G".toList, year := "1999".toList }) ∧
    ("TPE1".toList ∈
      (updateMp3Tags
        { source_path := [], author := "Jane".toList, title := "T".toList,
          genre := "G".toList, year := "1999".toList }
        [("TPE1".toList, "Bob".toList)] true).staged ↔
      "Jane".toList ≠ [] ∧ "Jane".toList ≠ "Unknown".toList ∧
        lookupTag [("TPE1".toList, "Bob".toList)] "TPE1".toList ≠
          some "Jane".toList) :=
  ⟨by decide,
   updateMp3Tags_staging_rule
     { source_path := [], author := "Jane".toList, title := "T".toList,
       genre := "G".toList, year := "1999".toList }
     [("TPE1".toList, "Bob".toList)] true "TPE1".toList "Jane".toList
     (by decide)⟩

/-- A successful separator read pins a hyphen at offset `i + 1`. -/
lemma afterSep_dash {s : List Char} {i : Nat} {rest : List Char}
    (h : afterSep s i = some rest) : s[i + 1]? = some '-' := by
  rw [afterSep] at h
  by_cases hc : (s.drop i).take 3 = sepL
  · have h1 : ((s.drop i).take 3)[1]? = some '-' := by rw [hc]; rfl
    rw [List.getElem?_take_of_lt (by omega)] at h1
    rwa [List.getElem?_drop] at h1
  · rw [if_neg hc] at h
    cases h

/-- Reading the separator at the canonical split of `X ++ " - " ++ Y`. -/
lemma afterSep_self (X Y : List Char) :
    afterSep (X ++ sepL ++ Y) X.length = some Y := by
  rw [afterSep]
  have hd : (X ++ sepL ++ Y).drop X.length = sepL ++ Y := by
    rw [List.append_assoc]
    exact List.drop_left X (sepL ++ Y)
  have hd3 : (X ++ sepL ++ Y).drop (X.length + 3) = Y :=
    List.drop_left' (by simp [sepL])
  rw [hd, hd3, List.take_left' (show sepL.length = 3 from rfl), if_pos rfl]

/-- The separator's hyphen sits at offset `|X| + 1`. -/
lemma sep_dash (X Y : List Char) :
    (X ++ sepL ++ Y)[X.length + 1]? = some '-' := by
  rw [List.append_assoc, List.getElem?_append, if_neg (by omega)]
  have he : X.length + 1 - X.length = 1 := by omega
  rw [he]
  rfl

/-- With a hyphen-free `X`, any hyphen of `X ++ " - " ++ Y` lies at the
separator or strictly inside `Y`. -/
lemma dash_cases (X Y : List Char) (hX : '-' ∉ X) (j : Nat)
    (h : (X ++ sepL ++ Y)[j]? = some '-') :
    j = X.length + 1 ∨ X.length + 3 ≤ j := by
  rw [List.append_assoc, List.getElem?_append] at h
  by_cases hj : j < X.length
  · rw [if_pos hj] at h
    exact absurd (List.getElem?_mem h) hX
  · rw [if_neg hj] at h
    by_cases hk : j - X.length < 3
    · have h0 : j - X.length = 0 ∨ j - X.length = 1 ∨ j - X.length = 2 := by omega
      rcases h0 with h0 | h0 | h0
      · rw [h0, show sepL ++ Y = ' ' :: '-' :: ' ' :: Y from rfl] at h
        simp at h
      · left; omega
      · rw [h0, show sepL ++ Y = ' ' :: '-' :: ' ' :: Y from rfl] at h
        simp at h
    · right; omega

/-- With hyphen-free `X` and `Y`, the hyphen can only be the separator's. -/
lemma dash_only (X Y : List Char) (hX : '-' ∉ X) (hY : '-' ∉ Y) (j : Nat)
    (h : (X ++ sepL ++ Y)[j]? = some '-') : j = X.length + 1 := by
  rcases dash_cases X Y hX j h with h1 | h2
  · exact h1
  · exfalso
    rw [List.append_assoc, List.getElem?_append, if_neg (by omega),
      List.getElem?_append, show sepL.length = 3 from rfl, if_neg (by omega)] at h
    exact hY (List.getElem?_mem h)

/-- The title-first template matches at the canonical split. -/
lemma taAt_self (X Y : List Char) (hXne : X ≠ []) (hXn : '\n' ∉ X)
    (hYne : Y ≠ []) (hYd : '-' ∉ Y) :
    taAt (X ++ sepL ++ Y) X.length = some (X, Y) := by
  rw [taAt, afterSep_self, Option.some_bind]
  have ht : (X ++ sepL ++ Y).take X.length = X := by
    rw [List.append_assoc]
    exact List.take_left X (sepL ++ Y)
  have ha : Y.takeWhile (fun c => c ≠ '-') = Y := by
    rw [List.takeWhile_eq_self_iff]
    intro x hx
    simp only [decide_eq_true_eq]
    intro he
    exact hYd (he ▸ hx)
  have hall : X.all (fun c => c ≠ '\n') = true := by
    rw [List.all_eq_true]
    intro x hx
    simp only [decide_eq_true_eq]
    intro he
    exact hXn (he ▸ hx)
  rw [ht, ha, if_pos ⟨hXne, hall, hYne⟩]

/-- The title-first template fails at every other split. -/
lemma taAt_ne (X Y : List Char) (hXd : '-' ∉ X) (hYd : '-' ∉ Y)
    (i : Nat) (hi : i ≠ X.length) : taAt (X ++ sepL ++ Y) i = none := by
  rw [taAt]
  cases ha : afterSep (X ++ sepL ++ Y) i with
  | none => rfl
  | some rest =>
      exfalso
      have hdash := afterSep_dash ha
      have := dash_only X Y hXd hYd (i + 1) hdash
      omega

/-- The author-first template matches at the canonical split. -/
lemma atAt_self (X Y : List Char) (hXne : X ≠ []) (hXd : '-' ∉ X)
    (hYne : Y ≠ []) (hYn : '\n' ∉ Y) :
    atAt (X ++ sepL ++ Y) X.length = some (X, Y) := by
  rw [atAt, afterSep_self, Option.some_bind]
  have ht : (X ++ sepL ++ Y).take X.length = X := by
    rw [List.append_assoc]
    exact List.take_left X (sepL ++ Y)
  have ha : Y.takeWhile (fun c => c ≠ '\n') = Y := by
    rw [List.takeWhile_eq_self_iff]
    intro x hx
    simp only [decide_eq_true_eq]
    intro he
    exact hYn (he ▸ hx)
  have hall : X.all (fun c => c ≠ '-') = true := by
    rw [List.all_eq_true]
    intro x hx
    simp only [decide_eq_true_eq]
    intro he
    exact hXd (he ▸ hx)
  rw [ht, ha, if_pos ⟨hXne, hall, hYne⟩]

/-- The author-first template fails at every other split (only hyphen-free
`X` needed: any later split would put the separator's hyphen inside the
hyphen-free author group). -/
lemma atAt_ne (X Y : List Char) (hXd : '-' ∉ X) (i : Nat)
    (hi : i ≠ X.length) : atAt (X ++ sepL ++ Y) i = none := by
  rw [atAt]
  cases ha : afterSep (X ++ sepL ++ Y) i with
  | none => rfl
  | some rest =>
      rw [Option.some_bind]
      have hdash := afterSep_dash ha
      rcases dash_cases X Y hXd (i + 1) hdash with h1 | h2
      · exact absurd (by omega : i = X.length) hi
      · have hmem : '-' ∈ (X ++ sepL ++ Y).take i := by
          have hlt : X.length + 1 < i := by omega
          have h1 : ((X ++ sepL ++ Y).take i)[X.length + 1]? =
              (X ++ sepL ++ Y)[X.length + 1]? := List.getElem?_take_of_lt hlt
          rw [sep_dash X Y] at h1
          exact List.getElem?_mem h1
        rw [if_neg]
        intro hcond
        have := List.all_eq_true.mp hcond.2.1 '-' hmem
        simp at this

/-- A function yielding `some` at exactly one listed point determines
`findSome?` there. -/
lemma findSome_unique {α β : Type} (f : α → Option β) (l : List α) (a : α)
    (b : β) (ha : a ∈ l) (hfa : f a = some b)
    (hnone : ∀ x ∈ l, x ≠ a → f x = none) : l.findSome? f = some b := by
  induction l with
  | nil => cases ha
  | cons x l ih =>
      rcases List.mem_cons.mp ha with rfl | hmem
      · simp [List.findSome?_cons, hfa]
      · by_cases hxa : x = a
        · subst hxa
          simp [List.findSome?_cons, hfa]
        · have hx := hnone x (List.mem_cons_self x l) hxa
          simp only [List.findSome?_cons, hx]
          exact ih hmem (fun y hy hne => hnone y (List.mem_cons_of_mem x hy) hne)

/-- Greedy match of `_PATTERN_TITLE_AUTHOR` on a simple two-field name. -/
lemma matchTitleAuthor_form (X Y : List Char) (hXne : X ≠ []) (hXn : '\n' ∉ X)
    (hXd : '-' ∉ X) (hYne : Y ≠ []) (hYd : '-' ∉ Y) :
    matchTitleAuthor (X ++ sepL ++ Y) = some (X, Y) := by
  rw [matchTitleAuthor]
  apply findSome_unique (taAt (X ++ sepL ++ Y)) _ X.length (X, Y)
  · apply List.mem_reverse.mpr
    apply List.mem_range.mpr
    rw [List.length_append, List.length_append]
    omega
  · exact taAt_self X Y hXne hXn hYne hYd
  · intro x hx hne
    exact taAt_ne X Y hXd hYd x hne

/-- Greedy match of `_PATTERN_AUTHOR_TITLE` on a name with hyphen-free first
field. -/
lemma matchAuthorTitle_form (X Y : List Char) (hXne : X ≠ []) (hXd : '-' ∉ X)
    (hYne : Y ≠ []) (hYn : '\n' ∉ Y) :
    matchAuthorTitle (X ++ sepL ++ Y) = some (X, Y) := by
  rw [matchAuthorTitle]
  apply findSome_unique (atAt (X ++ sepL ++ Y)) _ X.length (X, Y)
  · apply List.mem_reverse.mpr
    apply List.mem_range.mpr
    rw [List.length_append, List.length_append]
    omega
  · exact atAt_self X Y hXne hXd hYne hYn
  · intro x hx hne
    exact atAt_ne X Y hXd x hne

/-- C2: for a folder name `X ++ " - " ++ Y` with nonempty, hyphen-free and
newline-free fields, the title-first interpretation matches with title `X` and
author `Y`; when the (stripped, lower-cased) author field does not start with
"the ", "a ", or "an ", `parse_folder` returns it — title = X, author = Y;
when it does, the title-first candidate is rejected and `parse_folder` returns
the author-first interpretation — author = X, title = Y.  Both returned fields
are stripped of surrounding whitespace. -/
theorem parse_folder_heuristic (X Y : List Char)
    (hXne : X ≠ []) (hYne : Y ≠ []) (hXd : '-' ∉ X) (hYd : '-' ∉ Y)
    (hXn : '\n' ∉ X) (hYn : '\n' ∉ Y) :
    (startsWithArticle (pyLower (pyStrip Y)) = false →
      parse_folder (X ++ sepL ++ Y) =
        some { source_path := X ++ sepL ++ Y, author := pyStrip Y,
               title := pyStrip X }) ∧
    (startsWithArticle (pyLower (pyStrip Y)) = true →
      parse_folder (X ++ sepL ++ Y) =
        some { source_path := X ++ sepL ++ Y, author := pyStrip X,
               title := pyStrip Y }) := by
  have hTA : matchPatternTA (X ++ sepL ++ Y) =
      some { source_path := X ++ sepL ++ Y, author := pyStrip Y,
             title := pyStrip X } := by
    rw [matchPatternTA, matchTitleAuthor_form X Y hXne hXn hXd hYne hYd,
      Option.map_some']
  have hAT : matchPatternAT (X ++ sepL ++ Y) =
      some { source_path := X ++ sepL ++ Y, author := pyStrip X,
             title := pyStrip Y } := by
    rw [matchPatternAT, matchAuthorTitle_form X Y hXne hXd hYne hYn,
      Option.map_some']
  constructor
  · intro hart
    rw [parse_folder, hTA]
    simp [hart]
  · intro hart
    rw [parse_folder, hTA]
    simp [hart]
    simpa using hAT

/-- Witness for C2 on the spec's own example fields. -/
theorem parse_folder_heuristic_witness :
    startsWithArticle (pyLower (pyStrip "Some Author".toList)) = false ∧
    parse_folder ("Some Title".toList ++ sepL ++ "Some Author".toList) =
      some { source_path := "Some Title".toList ++ sepL ++ "Some Author".toList,
             author := pyStrip "Some Author".toList,
             title := pyStrip "Some Title".toList } :=
  ⟨by decide,
   (parse_folder_heuristic "Some Title".toList "Some Author".toList
      (by decide) (by decide) (by decide) (by decide) (by decide)
      (by decide)).1 (by decide)⟩

/-- C10: `Organize.parse_foldername` tries the author-first template first and
returns its raw groups whenever it matches — for every `X ++ " - " ++ Y` with
nonempty hyphen-free `X` and nonempty newline-free `Y` it yields author = X,
title = Y, with no leading-article tie-break — so on the folder name
"Project Hail Mary - Andy Weir" its result and `parse_folder`'s carry the
author and title fields swapped relative to each other. -/
theorem parse_foldername_not_equivalent (X Y : List Char)
    (hXne : X ≠ []) (hXd : '-' ∉ X) (hYne : Y ≠ []) (hYn : '\n' ∉ Y) :
    parse_foldername (X ++ sepL ++ Y) = some (X, Y) ∧
    parse_foldername "Project Hail Mary - Andy Weir".toList =
      some ("Project Hail Mary".toList, "Andy Weir".toList) ∧
    (parse_folder "Project Hail Mary - Andy Weir".toList).map
        (fun ab => (ab.author, ab.title)) =
      some ("Andy Weir".toList, "Project Hail Mary".toList) := by
  refine ⟨?_, by decide, by decide⟩
  rw [parse_foldername, matchAuthorTitle_form X Y hXne hXd hYne hYn]

/-- Witness for C10 at the example folder name's own fields. -/
theorem parse_foldername_not_equivalent_witness :
    ("Project Hail Mary".toList ≠ ([] : List Char)) ∧
    parse_foldername
        ("Project Hail Mary".toList ++ sepL ++ "Andy Weir".toList) =
      some ("Project Hail Mary".toList, "Andy Weir".toList) :=
  ⟨by decide,
   (parse_foldername_not_equivalent "Project Hail Mary".toList
      "Andy Weir".toList (by decide) (by decide) (by decide) (by decide)).1⟩

end AudioBookz
